import Mathlib

set_option maxRecDepth 16000

/-!
Verification development for the chuni-c2c-dumper decode pipeline.

The embedding models the two source files of the repository:

* `src/proto.rs` — the byte-level parsers (`Version`, `Command`, `Header`,
  `ArchiveHeader`, `Group`, `Recruit`), the length-prefixed UTF-8 string
  reader, and the `dump` entry point (magic strip, ECB block decryption,
  sink write, envelope parse, command dispatch);
* `src/main.rs` — one iteration of the orchestration loop (capture fetch,
  frame slicing, IPv4/UDP/port filtering, call into `dump`).

Bytes are modelled as `Nat` values; every reader reduces a byte modulo 256,
which coincides with the Rust `u8` semantics on every real buffer.  Fallible
reads return `Option`.  The AES-128 block primitive of the external `aes`
crate is modelled as an explicit block-function parameter `dec`; the source
instantiates it with the fixed key `b"CHUNICHUNICHUNIC"`.  The process-level
outcomes of `dump` (ordinary error return via `?`, panic via `.unwrap()` or
out-of-bounds slicing) are reified in `DumpStatus`.
-/

namespace ChuniC2C

/-- Little-endian 2-byte encoding of a natural number (low byte first). -/
def leBytes2 (v : Nat) : List Nat := [v % 256, v / 256 % 256]

/-- Little-endian 4-byte encoding of a natural number (low byte first). -/
def leBytes4 (v : Nat) : List Nat :=
  [v % 256, v / 256 % 256, v / 65536 % 256, v / 16777216 % 256]

/-- Little-endian 8-byte encoding of a natural number (low byte first). -/
def leBytes8 (v : Nat) : List Nat :=
  [v % 256, v / 256 % 256, v / 65536 % 256, v / 16777216 % 256,
   v / 4294967296 % 256, v / 1099511627776 % 256,
   v / 281474976710656 % 256, v / 72057594037927936 % 256]

/-- Big-endian (network order) 4-byte encoding of a natural number. -/
def beBytes4 (v : Nat) : List Nat :=
  [v / 16777216 % 256, v / 65536 % 256, v / 256 % 256, v % 256]

/-- Reinterpretation of an unsigned 32-bit value as a signed `i32`. -/
def toI32 (u : Nat) : Int :=
  if u < 2147483648 then (u : Int) else (u : Int) - 4294967296

/-- Little-endian 4-byte two's-complement encoding of an `i32` value. -/
def i32leBytes (t : Int) : List Nat := leBytes4 (t % 4294967296).toNat

/-- Reader for one byte (`read_u8`). -/
def readU8 : List Nat → Option (Nat × List Nat)
  | [] => none
  | b :: l => some (b % 256, l)

/-- Reader for a little-endian `u16` (`read_u16::<LE>`). -/
def readU16LE : List Nat → Option (Nat × List Nat)
  | b0 :: b1 :: l => some (b0 % 256 + 256 * (b1 % 256), l)
  | _ => none

/-- Reader for a little-endian `u32` (`read_u32::<LE>`). -/
def readU32LE : List Nat → Option (Nat × List Nat)
  | b0 :: b1 :: b2 :: b3 :: l =>
      some (b0 % 256 + 256 * (b1 % 256) + 65536 * (b2 % 256)
            + 16777216 * (b3 % 256), l)
  | _ => none

/-- Reader for a big-endian `u32` (`read_u32::<NetworkEndian>`). -/
def readU32BE : List Nat → Option (Nat × List Nat)
  | b0 :: b1 :: b2 :: b3 :: l =>
      some (16777216 * (b0 % 256) + 65536 * (b1 % 256) + 256 * (b2 % 256)
            + b3 % 256, l)
  | _ => none

/-- Reader for a little-endian `u64` (`read_u64::<LE>`). -/
def readU64LE : List Nat → Option (Nat × List Nat)
  | b0 :: b1 :: b2 :: b3 :: b4 :: b5 :: b6 :: b7 :: l =>
      some (b0 % 256 + 256 * (b1 % 256) + 65536 * (b2 % 256)
            + 16777216 * (b3 % 256) + 4294967296 * (b4 % 256)
            + 1099511627776 * (b5 % 256) + 281474976710656 * (b6 % 256)
            + 72057594037927936 * (b7 % 256), l)
  | _ => none

/-- Reader for a little-endian `i32` (`read_i32::<LE>`). -/
def readI32LE (l : List Nat) : Option (Int × List Nat) :=
  match readU32LE l with
  | none => none
  | some (v, r) => some (toI32 v, r)

/-- Reader discarding exactly `n` bytes (`read_exact` into a scratch array). -/
def readExact (n : Nat) (l : List Nat) : Option (Unit × List Nat) :=
  if n ≤ l.length then some ((), l.drop n) else none

/-- Reader extracting exactly `n` bytes (`read_exact` into a value buffer). -/
def readBytes (n : Nat) (l : List Nat) : Option (List Nat × List Nat) :=
  if n ≤ l.length then some (l.take n, l.drop n) else none

/-- Validity of a byte sequence as UTF-8, as checked by `String::from_utf8`:
no continuation-byte leads, no overlong forms, no surrogates, nothing past
`U+10FFFF`. -/
def utf8Valid : List Nat → Bool
  | [] => true
  | b :: l =>
    if b < 128 then utf8Valid l
    else if b < 194 then false
    else if b < 224 then
      match l with
      | b1 :: l1 => (128 ≤ b1 && b1 < 192) && utf8Valid l1
      | [] => false
    else if b = 224 then
      match l with
      | b1 :: b2 :: l2 =>
          (160 ≤ b1 && b1 < 192) && (128 ≤ b2 && b2 < 192) && utf8Valid l2
      | _ => false
    else if b < 237 then
      match l with
      | b1 :: b2 :: l2 =>
          (128 ≤ b1 && b1 < 192) && (128 ≤ b2 && b2 < 192) && utf8Valid l2
      | _ => false
    else if b = 237 then
      match l with
      | b1 :: b2 :: l2 =>
          (128 ≤ b1 && b1 < 160) && (128 ≤ b2 && b2 < 192) && utf8Valid l2
      | _ => false
    else if b < 240 then
      match l with
      | b1 :: b2 :: l2 =>
          (128 ≤ b1 && b1 < 192) && (128 ≤ b2 && b2 < 192) && utf8Valid l2
      | _ => false
    else if b = 240 then
      match l with
      | b1 :: b2 :: b3 :: l3 =>
          (144 ≤ b1 && b1 < 192) && (128 ≤ b2 && b2 < 192)
            && (128 ≤ b3 && b3 < 192) && utf8Valid l3
      | _ => false
    else if b < 244 then
      match l with
      | b1 :: b2 :: b3 :: l3 =>
          (128 ≤ b1 && b1 < 192) && (128 ≤ b2 && b2 < 192)
            && (128 ≤ b3 && b3 < 192) && utf8Valid l3
      | _ => false
    else if b = 244 then
      match l with
      | b1 :: b2 :: b3 :: l3 =>
          (128 ≤ b1 && b1 < 144) && (128 ≤ b2 && b2 < 192)
            && (128 ≤ b3 && b3 < 192) && utf8Valid l3
      | _ => false
    else false

/-- Reader for a length-prefixed UTF-8 string (`impl Parse for String`):
a little-endian `u32` length, that many raw bytes, then UTF-8 validation.
The decoded string is represented by its byte sequence. -/
def parseString (l : List Nat) : Option (List Nat × List Nat) :=
  match readU32LE l with
  | none => none
  | some (n, r) =>
    match readBytes n r with
    | none => none
    | some (s, r2) => if utf8Valid s then some (s, r2) else none

theorem readU8_cons (b : Nat) (l : List Nat) :
    readU8 (b :: l) = some (b % 256, l) := rfl

theorem readU16LE_leB (v : Nat) (l : List Nat) :
    readU16LE (leBytes2 v ++ l) = some (v % 65536, l) := by
  simp only [leBytes2, List.cons_append, List.nil_append, readU16LE,
    Option.some.injEq, Prod.mk.injEq, and_true]
  omega

theorem readU32LE_leB (v : Nat) (l : List Nat) :
    readU32LE (leBytes4 v ++ l) = some (v % 4294967296, l) := by
  simp only [leBytes4, List.cons_append, List.nil_append, readU32LE,
    Option.some.injEq, Prod.mk.injEq, and_true]
  omega

theorem readU32BE_beB (v : Nat) (l : List Nat) :
    readU32BE (beBytes4 v ++ l) = some (v % 4294967296, l) := by
  simp only [beBytes4, List.cons_append, List.nil_append, readU32BE,
    Option.some.injEq, Prod.mk.injEq, and_true]
  omega

theorem readU64LE_leB (v : Nat) (l : List Nat) :
    readU64LE (leBytes8 v ++ l) = some (v % 18446744073709551616, l) := by
  simp only [leBytes8, List.cons_append, List.nil_append, readU64LE,
    Option.some.injEq, Prod.mk.injEq, and_true]
  omega

theorem readI32LE_i32leB (t : Int)
    (h1 : -2147483648 ≤ t) (h2 : t < 2147483648) (l : List Nat) :
    readI32LE (i32leBytes t ++ l) = some (t, l) := by
  have hlt : (t % 4294967296).toNat < 4294967296 := by omega
  simp only [readI32LE, i32leBytes, readU32LE_leB, Nat.mod_eq_of_lt hlt,
    Option.some.injEq, Prod.mk.injEq, and_true, toI32]
  split <;> omega

theorem readExact_append (n : Nat) (bs l : List Nat) (h : bs.length = n) :
    readExact n (bs ++ l) = some ((), l) := by
  subst h
  simp [readExact, List.drop_left]

theorem readExact_replicate (n z : Nat) (l : List Nat) :
    readExact n (List.replicate n z ++ l) = some ((), l) :=
  readExact_append n _ l (List.length_replicate n z)

theorem readBytes_append (bs l : List Nat) :
    readBytes bs.length (bs ++ l) = some (bs, l) := by
  simp [readBytes, List.take_left, List.drop_left]

/-- Wire encoding of a length-prefixed string. -/
def serializeString (s : List Nat) : List Nat := leBytes4 s.length ++ s

theorem parseString_ser (s : List Nat) (h1 : utf8Valid s = true)
    (h2 : s.length < 4294967296) (l : List Nat) :
    parseString (serializeString s ++ l) = some (s, l) := by
  rw [serializeString, List.append_assoc]
  simp only [parseString, readU32LE_leB, Nat.mod_eq_of_lt h2,
    readBytes_append, h1, if_true]

/-- Three-component version number (`struct Version` in `proto.rs`). -/
structure Version where
  major : Nat
  minor : Nat
  patch : Nat
deriving DecidableEq

/-- Reader for `Version` (`impl Parse for Version`): one packed little-endian
`u32`, split as `major = v / 1_000_000`, `minor = (v / 1000) % 1000`,
`patch = v % 1000`, each then cast to `u16`. -/
def Version.parse (l : List Nat) : Option (Version × List Nat) :=
  match readU32LE l with
  | none => none
  | some (v, r) =>
      some (⟨v / 1000000 % 65536, v / 1000 % 1000 % 65536, v % 1000 % 65536⟩, r)

/-- Command identifier (`enum Command` with `num_enum::FromPrimitive`). -/
inductive Command where
  | Recruit
  | RecruitEnd
  | Unknown (x : Nat)
deriving DecidableEq

/-- Total mapping from a raw `u32` to `Command` (`#[num_enum(catch_all)]`):
11 and 12 are the named variants, everything else is `Unknown`. -/
def Command.fromU32 (x : Nat) : Command :=
  if x = 11 then .Recruit else if x = 12 then .RecruitEnd else .Unknown x

/-- Raw `u32` carried by a `Command` value. -/
def Command.toU32 : Command → Nat
  | .Recruit => 11
  | .RecruitEnd => 12
  | .Unknown x => x

/-- Outer packet header (`struct Header` in `proto.rs`). -/
structure Header where
  rom_version : Version
  data_version : Version
  command : Command
deriving DecidableEq

/-- Reader for `Header` (`impl Parse for Header`): two packed versions then
the command word. -/
def Header.parse (l : List Nat) : Option (Header × List Nat) :=
  match Version.parse l with
  | none => none
  | some (rv, r1) =>
    match Version.parse r1 with
    | none => none
    | some (dv, r2) =>
      match readU32LE r2 with
      | none => none
      | some (c, r3) => some (⟨rv, dv, Command.fromU32 c⟩, r3)

/-- Archive header (`struct ArchiveHeader` in `proto.rs`). -/
structure ArchiveHeader where
  magic : List Nat
  version : Nat
  size_int : Nat
  size_long : Nat
  size_float : Nat
  size_double : Nat
  endian : Nat
deriving DecidableEq

/-- Reader for `ArchiveHeader` (`impl Parse for ArchiveHeader`): a
length-prefixed magic string, a `u16` version, four size-descriptor bytes
and a `u32` endianness tag. -/
def ArchiveHeader.parse (l : List Nat) : Option (ArchiveHeader × List Nat) :=
  match parseString l with
  | none => none
  | some (m, r1) =>
    match readU16LE r1 with
    | none => none
    | some (v, r2) =>
      match readU8 r2 with
      | none => none
      | some (si, r3) =>
        match readU8 r3 with
        | none => none
        | some (sl, r4) =>
          match readU8 r4 with
          | none => none
          | some (sf, r5) =>
            match readU8 r5 with
            | none => none
            | some (sd, r6) =>
              match readU32LE r6 with
              | none => none
              | some (e, r7) => some (⟨m, v, si, sl, sf, sd, e⟩, r7)

/-- Matchmaking group (`enum Group` with `num_enum::FromPrimitive`). -/
inductive Group where
  | A
  | B
  | C
  | D
  | Unknown (x : Nat)
deriving DecidableEq

/-- Total mapping from a raw `u32` to `Group` (`#[num_enum(catch_all)]`). -/
def Group.fromU32 (x : Nat) : Group :=
  if x = 1 then .A else if x = 2 then .B
  else if x = 3 then .C else if x = 4 then .D else .Unknown x

/-- Raw `u32` carried by a `Group` value. -/
def Group.toU32 : Group → Nat
  | .A => 1
  | .B => 2
  | .C => 3
  | .D => 4
  | .Unknown x => x

/-- Model of the external chrono conversion used at the timestamp field:
`DateTime::from_timestamp(secs, 0)` succeeds exactly when `secs` lies inside
chrono's representable range (about ±262000 years around the epoch; the
exact endpoints never matter below because every `i32` lies well inside).
The instant is represented by its epoch-second count. -/
def chronoInRange (secs : Int) : Bool :=
  -8334601228800 ≤ secs && secs ≤ 8210266876799

/-- Model of `DateTime::from_timestamp(secs, 0).unwrap_or_default()` followed
by `with_timezone(&Local)`: the fallback instant is the epoch (`Default` for
chrono datetimes), and a timezone change preserves the instant. -/
def chronoOrDefault (secs : Int) : Int :=
  if chronoInRange secs then secs else 0

/-- Recruit record (`struct Recruit` in `proto.rs`).  Strings are byte
sequences, the IPv4 host is its 32-bit numeric value, the timestamp is the
epoch-second count of the decoded instant. -/
structure Recruit where
  flag : Bool
  unknown0 : Nat
  host : Nat
  aime_id : Nat
  name : List Nat
  chara : Nat
  chara_level : Nat
  skill : Nat
  skill_level : Nat
  trophy : Nat
  trophy2 : Nat
  trophy3 : Nat
  rating : Nat
  music_id : Nat
  difficulty : Nat
  team : List Nat
  avatar_wear : Nat
  avatar_head : Nat
  avatar_face : Nat
  avatar_skin : Nat
  avatar_item : Nat
  avatar_front : Nat
  avatar_back : Nat
  music_id2 : Nat
  group : Group
  time : Int
  players : Nat
  event_mode : Bool
  friend_only : Bool
deriving DecidableEq

/-- Reader for `Recruit` (`impl Parse for Recruit`), line by line from the
source: the 15/30/16/5-byte opaque skips, the discarded always-0 `u32`, the
discarded always-1 `u64`, the discarded event-mode/unknown `u32` pair, the
discarded `-1` sentinel `i32`, and the timestamp with its
`unwrap_or_default` fallback. -/
def Recruit.parse (l : List Nat) : Option (Recruit × List Nat) :=
  match readExact 15 l with
  | none => none
  | some (_, l1) =>
  match readU8 l1 with
  | none => none
  | some (flagB, l2) =>
  match readU32LE l2 with
  | none => none
  | some (unknown0, l3) =>
  match readU32BE l3 with
  | none => none
  | some (host, l4) =>
  match readU32LE l4 with
  | none => none
  | some (aime_id, l5) =>
  match readU32LE l5 with
  | none => none
  | some (_, l6) =>
  match parseString l6 with
  | none => none
  | some (name, l7) =>
  match readU32LE l7 with
  | none => none
  | some (chara, l8) =>
  match readU32LE l8 with
  | none => none
  | some (chara_level, l9) =>
  match readU32LE l9 with
  | none => none
  | some (skill, l10) =>
  match readU32LE l10 with
  | none => none
  | some (skill_level, l11) =>
  match readU32LE l11 with
  | none => none
  | some (trophy, l12) =>
  match readU32LE l12 with
  | none => none
  | some (trophy2, l13) =>
  match readU32LE l13 with
  | none => none
  | some (trophy3, l14) =>
  match readU32LE l14 with
  | none => none
  | some (rating, l15) =>
  match readU32LE l15 with
  | none => none
  | some (music_id, l16) =>
  match readU32LE l16 with
  | none => none
  | some (difficulty, l17) =>
  match readU64LE l17 with
  | none => none
  | some (_, l18) =>
  match parseString l18 with
  | none => none
  | some (team, l19) =>
  match readExact 30 l19 with
  | none => none
  | some (_, l20) =>
  match readU32LE l20 with
  | none => none
  | some (avatar_wear, l21) =>
  match readU32LE l21 with
  | none => none
  | some (avatar_head, l22) =>
  match readU32LE l22 with
  | none => none
  | some (avatar_face, l23) =>
  match readU32LE l23 with
  | none => none
  | some (avatar_skin, l24) =>
  match readU32LE l24 with
  | none => none
  | some (avatar_item, l25) =>
  match readU32LE l25 with
  | none => none
  | some (avatar_front, l26) =>
  match readU32LE l26 with
  | none => none
  | some (avatar_back, l27) =>
  match readExact 16 l27 with
  | none => none
  | some (_, l28) =>
  match readU32LE l28 with
  | none => none
  | some (music_id2, l29) =>
  match readU32LE l29 with
  | none => none
  | some (groupRaw, l30) =>
  match readU32LE l30 with
  | none => none
  | some (_, l31) =>
  match readU32LE l31 with
  | none => none
  | some (_, l32) =>
  match readI32LE l32 with
  | none => none
  | some (_, l33) =>
  match readExact 5 l33 with
  | none => none
  | some (_, l34) =>
  match readI32LE l34 with
  | none => none
  | some (secs, l35) =>
  match readU32LE l35 with
  | none => none
  | some (players, l36) =>
  match readU8 l36 with
  | none => none
  | some (eventModeB, l37) =>
  match readU8 l37 with
  | none => none
  | some (friendOnlyB, l38) =>
  some (⟨flagB != 0, unknown0, host, aime_id, name,
         chara, chara_level, skill, skill_level, trophy, trophy2, trophy3,
         rating, music_id, difficulty, team,
         avatar_wear, avatar_head, avatar_face, avatar_skin,
         avatar_item, avatar_front, avatar_back,
         music_id2, Group.fromU32 groupRaw, chronoOrDefault secs,
         players, eventModeB != 0, friendOnlyB != 0⟩,
        l38)

/-- Identity block function, used to instantiate the abstract cipher where
the concrete block transformation is irrelevant. -/
def idBlock : List Nat → List Nat := fun b => b

/-- Blockwise ECB application of a 16-byte block function, with fuel equal
to the buffer length so that the definition reduces by `rfl`.  This models
`InOutBuf::from(&mut buf[..]).into_chunks()` followed by
`decrypt_blocks_inout(blocks)`: only the full 16-byte chunks are
transformed, the trailing `len mod 16` bytes are left untouched. -/
def chunkMapAux (f : List Nat → List Nat) : Nat → List Nat → List Nat
  | 0, buf => buf
  | fuel + 1, buf =>
      if buf.length < 16 then buf
      else f (buf.take 16) ++ chunkMapAux f fuel (buf.drop 16)

/-- Blockwise ECB application of a 16-byte block function to a buffer. -/
def chunkMap (f : List Nat → List Nat) (buf : List Nat) : List Nat :=
  chunkMapAux f buf.length buf

/-- Process-level outcome of one `dump` call: normal return, error return
through `?` (decode error), error return through `?` on the sink write, or
a panic (`.unwrap()` on a failed parse, or out-of-bounds slicing). -/
inductive DumpStatus where
  | ok
  | decodeErr
  | sinkErr
  | panicked
deriving DecidableEq

/-- Observable effects of one `dump` call: the buffer passed to
`out.write_all` (if the call was reached), the successfully parsed
structures, and the process-level outcome. -/
structure DumpResult where
  written : Option (List Nat)
  header : Option Header
  archive : Option ArchiveHeader
  recruit : Option Recruit
  status : DumpStatus
deriving DecidableEq

/-- Embedding of `pub fn dump(pkt: &[u8], out: &mut impl Write)` from
`proto.rs`.  The AES-128 decryption with the fixed key is the block-function
parameter `dec`; `sinkOk` tells whether `out.write_all` succeeds.  Line by
line: `&pkt[0..4]` panics when fewer than 4 bytes are present; the rest of
the payload is decrypted blockwise in place; the buffer is written to the
sink, a failure propagating via `?`; `Header::parse` failure propagates via
`?`; `ArchiveHeader::parse` failure hits `.unwrap()` and panics; the
command dispatch parses a `Recruit` for commands 11 and 12 (failure
propagating via `?`) and only reports unknown commands. -/
def dump (dec : List Nat → List Nat) (sinkOk : Bool) (pkt : List Nat) :
    DumpResult :=
  if pkt.length < 4 then ⟨none, none, none, none, .panicked⟩
  else
    let buf := chunkMap dec (pkt.drop 4)
    if sinkOk then
      match Header.parse buf with
      | none => ⟨some buf, none, none, none, .decodeErr⟩
      | some (hdr, r1) =>
        match ArchiveHeader.parse r1 with
        | none => ⟨some buf, some hdr, none, none, .panicked⟩
        | some (ah, r2) =>
          match hdr.command with
          | .Unknown _ => ⟨some buf, some hdr, some ah, none, .ok⟩
          | _ =>
            match Recruit.parse r2 with
            | none => ⟨some buf, some hdr, some ah, none, .decodeErr⟩
            | some (rec, _) => ⟨some buf, some hdr, some ah, some rec, .ok⟩
    else ⟨some buf, none, none, none, .sinkErr⟩

/-- Result of slicing one captured frame
(`SlicedPacket::from_ethernet` / `from_ip` in `main.rs`): either the slicer
returned an error, or it produced a packet whose network layer may be IPv4,
whose transport layer may be UDP with a destination port, and a payload. -/
inductive SliceOutcome where
  | malformed
  | sliced (isIpv4 : Bool) (hasUdp : Bool) (destPort : Nat) (payload : List Nat)
deriving DecidableEq

/-- One event delivered to the orchestration loop: `cap.next_packet()`
either fails or yields a frame with a slicing outcome. -/
inductive CaptureEvent where
  | readErr
  | frame (s : SliceOutcome)
deriving DecidableEq

/-- Where control goes after one loop iteration: back to fetching the next
packet, or out of the loop (and hence out of `main` / the process). -/
inductive StepResult where
  | nextPacket
  | terminated
deriving DecidableEq

/-- Embedding of one iteration of the `loop` in `main` (`main.rs`):
a `next_packet` error is logged and the loop continues; a slicing error
propagates out of `main` through `?`; non-IPv4 frames, non-UDP transports
and foreign destination ports are skipped silently; otherwise `dump` runs
on the UDP payload, its error return is logged and the loop continues,
while a panic inside `dump` leaves the loop. -/
def loopStep (dec : List Nat → List Nat) (sinkOk : Bool) :
    CaptureEvent → StepResult
  | .readErr => .nextPacket
  | .frame .malformed => .terminated
  | .frame (.sliced isIpv4 hasUdp destPort payload) =>
      if isIpv4 = false then .nextPacket
      else if hasUdp = false then .nextPacket
      else if destPort ≠ 50200 then .nextPacket
      else if (dump dec sinkOk payload).status = .panicked then .terminated
      else .nextPacket

/-- Packed 32-bit integer encoding a version, the inverse of the split
performed by `Version.parse`. -/
def Version.packed (v : Version) : Nat :=
  v.major * 1000000 + v.minor * 1000 + v.patch

/-- Wellformedness of a `Version` for the round trip: the components arise
from some packed `u32`. -/
def Version.wf (v : Version) : Prop :=
  v.minor < 1000 ∧ v.patch < 1000 ∧ v.packed < 4294967296

instance (v : Version) : Decidable v.wf := by
  unfold Version.wf; infer_instance

/-- Wire encoding of a `Version`. -/
def serializeVersion (v : Version) : List Nat := leBytes4 v.packed

/-- Wellformedness of a `Command` for the round trip: its raw value fits in
32 bits and maps back to the same variant (rules out `Unknown 11`,
`Unknown 12`). -/
def Command.wf (c : Command) : Prop :=
  c.toU32 < 4294967296 ∧ Command.fromU32 c.toU32 = c

instance (c : Command) : Decidable c.wf := by
  unfold Command.wf; infer_instance

/-- Wire encoding of a `Header`. -/
def serializeHeader (h : Header) : List Nat :=
  serializeVersion h.rom_version ++ serializeVersion h.data_version
    ++ leBytes4 h.command.toU32

/-- Wellformedness of a `Header` for the round trip. -/
def Header.wf (h : Header) : Prop :=
  h.rom_version.wf ∧ h.data_version.wf ∧ h.command.wf

instance (h : Header) : Decidable h.wf := by
  unfold Header.wf; infer_instance

/-- Wire encoding of an `ArchiveHeader`. -/
def serializeArchiveHeader (a : ArchiveHeader) : List Nat :=
  serializeString a.magic ++ leBytes2 a.version
    ++ [a.size_int, a.size_long, a.size_float, a.size_double]
    ++ leBytes4 a.endian

/-- Wellformedness of an `ArchiveHeader` for the round trip. -/
def ArchiveHeader.wf (a : ArchiveHeader) : Prop :=
  utf8Valid a.magic = true ∧ a.magic.length < 4294967296
    ∧ a.version < 65536 ∧ a.size_int < 256 ∧ a.size_long < 256
    ∧ a.size_float < 256 ∧ a.size_double < 256 ∧ a.endian < 4294967296

instance (a : ArchiveHeader) : Decidable a.wf := by
  unfold ArchiveHeader.wf; infer_instance

/-- Wellformedness of a `Group` for the round trip: its raw value fits in
32 bits and maps back to the same variant. -/
def Group.wf (g : Group) : Prop :=
  g.toU32 < 4294967296 ∧ Group.fromU32 g.toU32 = g

instance (g : Group) : Decidable g.wf := by
  unfold Group.wf; infer_instance

/-- Wire encoding of a `Recruit` body with the timestamp field supplied as
raw bytes, following the field order of `Recruit::parse`: zero-filled
15/30/16/5-byte skip regions and the discarded fixed-value fields written
with their expected constants (`0` for the always-zero `u32`, `1` for the
always-one `u64`, `0` for the discarded event-mode and unknown words, `-1`
for the sentinel `i32`). -/
def serializeRecruitAux (r : Recruit) (tb : List Nat) : List Nat :=
  List.replicate 15 0
    ++ [if r.flag then 1 else 0]
    ++ leBytes4 r.unknown0
    ++ beBytes4 r.host
    ++ leBytes4 r.aime_id
    ++ leBytes4 0
    ++ serializeString r.name
    ++ leBytes4 r.chara
    ++ leBytes4 r.chara_level
    ++ leBytes4 r.skill
    ++ leBytes4 r.skill_level
    ++ leBytes4 r.trophy
    ++ leBytes4 r.trophy2
    ++ leBytes4 r.trophy3
    ++ leBytes4 r.rating
    ++ leBytes4 r.music_id
    ++ leBytes4 r.difficulty
    ++ leBytes8 1
    ++ serializeString r.team
    ++ List.replicate 30 0
    ++ leBytes4 r.avatar_wear
    ++ leBytes4 r.avatar_head
    ++ leBytes4 r.avatar_face
    ++ leBytes4 r.avatar_skin
    ++ leBytes4 r.avatar_item
    ++ leBytes4 r.avatar_front
    ++ leBytes4 r.avatar_back
    ++ List.replicate 16 0
    ++ leBytes4 r.music_id2
    ++ leBytes4 r.group.toU32
    ++ leBytes4 0
    ++ leBytes4 0
    ++ i32leBytes (-1)
    ++ List.replicate 5 0
    ++ tb
    ++ leBytes4 r.players
    ++ [if r.event_mode then 1 else 0]
    ++ [if r.friend_only then 1 else 0]

/-- Wire encoding of a `Recruit` body. -/
def serializeRecruit (r : Recruit) : List Nat :=
  serializeRecruitAux r (i32leBytes r.time)

/-- Wellformedness of a `Recruit` apart from its timestamp. -/
def Recruit.wfCore (r : Recruit) : Prop :=
  r.unknown0 < 4294967296 ∧ r.host < 4294967296 ∧ r.aime_id < 4294967296
    ∧ utf8Valid r.name = true ∧ r.name.length < 4294967296
    ∧ r.chara < 4294967296 ∧ r.chara_level < 4294967296
    ∧ r.skill < 4294967296 ∧ r.skill_level < 4294967296
    ∧ r.trophy < 4294967296 ∧ r.trophy2 < 4294967296
    ∧ r.trophy3 < 4294967296 ∧ r.rating < 4294967296
    ∧ r.music_id < 4294967296 ∧ r.difficulty < 4294967296
    ∧ utf8Valid r.team = true ∧ r.team.length < 4294967296
    ∧ r.avatar_wear < 4294967296 ∧ r.avatar_head < 4294967296
    ∧ r.avatar_face < 4294967296 ∧ r.avatar_skin < 4294967296
    ∧ r.avatar_item < 4294967296 ∧ r.avatar_front < 4294967296
    ∧ r.avatar_back < 4294967296 ∧ r.music_id2 < 4294967296
    ∧ r.group.wf ∧ r.players < 4294967296

instance (r : Recruit) : Decidable r.wfCore := by
  unfold Recruit.wfCore; infer_instance

/-- Wellformedness of a `Recruit` for the round trip: the timestamp must in
addition be a genuine `i32` instant. -/
def Recruit.wf (r : Recruit) : Prop :=
  r.wfCore ∧ -2147483648 ≤ r.time ∧ r.time < 2147483648

instance (r : Recruit) : Decidable r.wf := by
  unfold Recruit.wf; infer_instance

/-- Command-specific part of a plaintext envelope: a `Recruit` body for
commands 11/12, opaque trailing bytes otherwise. -/
inductive Body where
  | recruitBody (r : Recruit)
  | rawBody (bytes : List Nat)
deriving DecidableEq

/-- Plaintext envelope: outer header, archive header and command body. -/
structure Envelope where
  header : Header
  archive : ArchiveHeader
  body : Body
deriving DecidableEq

/-- Agreement of the body shape with the command identifier, including the
body's own wellformedness. -/
def BodyOk : Command → Body → Prop
  | .Recruit, .recruitBody r => r.wf
  | .RecruitEnd, .recruitBody r => r.wf
  | .Unknown _, .rawBody _ => True
  | _, _ => False

instance : (c : Command) → (b : Body) → Decidable (BodyOk c b)
  | .Recruit, .recruitBody r => inferInstanceAs (Decidable r.wf)
  | .RecruitEnd, .recruitBody r => inferInstanceAs (Decidable r.wf)
  | .Unknown _, .rawBody _ => inferInstanceAs (Decidable True)
  | .Recruit, .rawBody _ => inferInstanceAs (Decidable False)
  | .RecruitEnd, .rawBody _ => inferInstanceAs (Decidable False)
  | .Unknown _, .recruitBody _ => inferInstanceAs (Decidable False)

/-- Wellformedness of an `Envelope` for the round trip. -/
def Envelope.WellFormed (e : Envelope) : Prop :=
  e.header.wf ∧ e.archive.wf ∧ BodyOk e.header.command e.body

instance (e : Envelope) : Decidable e.WellFormed := by
  unfold Envelope.WellFormed; infer_instance

/-- Wire encoding of an `Envelope` (the plaintext before encryption). -/
def Envelope.serialize (e : Envelope) : List Nat :=
  serializeHeader e.header ++ serializeArchiveHeader e.archive
    ++ (match e.body with
        | .recruitBody r => serializeRecruit r
        | .rawBody bs => bs)

/-- Recruit record that `dump` is expected to report for an envelope. -/
def Envelope.recruitOut (e : Envelope) : Option Recruit :=
  match e.body with
  | .recruitBody r => some r
  | .rawBody _ => none

theorem chunkMapAux_eq (f : List Nat → List Nat) :
    ∀ n m buf, buf.length ≤ n → buf.length ≤ m →
      chunkMapAux f n buf = chunkMapAux f m buf := by
  intro n
  induction n with
  | zero =>
      intro m buf hn _
      have hb : buf = [] := List.eq_nil_of_length_eq_zero (by omega)
      subst hb
      cases m <;> simp [chunkMapAux]
  | succ n ih =>
      intro m buf hn hm
      cases m with
      | zero =>
          have hb : buf = [] := List.eq_nil_of_length_eq_zero (by omega)
          subst hb
          simp [chunkMapAux]
      | succ m =>
          by_cases hlt : buf.length < 16
          · simp [chunkMapAux, hlt]
          · simp only [chunkMapAux, if_neg hlt]
            have hd : (buf.drop 16).length = buf.length - 16 := by
              simp [List.length_drop]
            rw [ih m (buf.drop 16) (by omega) (by omega)]

theorem chunkMap_small (f : List Nat → List Nat) (buf : List Nat)
    (h : buf.length < 16) : chunkMap f buf = buf := by
  unfold chunkMap
  cases hn : buf.length with
  | zero => rfl
  | succ k =>
      show chunkMapAux f (k + 1) buf = buf
      rw [chunkMapAux, if_pos h]

theorem chunkMap_step (f : List Nat → List Nat) (buf : List Nat)
    (h : 16 ≤ buf.length) :
    chunkMap f buf = f (buf.take 16) ++ chunkMap f (buf.drop 16) := by
  unfold chunkMap
  obtain ⟨k, hk⟩ : ∃ k, buf.length = k + 1 := ⟨buf.length - 1, by omega⟩
  rw [hk]
  simp only [chunkMapAux, if_neg (by omega : ¬ buf.length < 16)]
  congr 1
  exact chunkMapAux_eq f k (buf.drop 16).length (buf.drop 16)
    (by simp [List.length_drop]; omega) (Nat.le_refl _)

theorem chunkMap_chunkMap (f g : List Nat → List Nat)
    (h : ∀ b : List Nat, b.length = 16 → (g b).length = 16 ∧ f (g b) = b) :
    ∀ buf : List Nat, chunkMap f (chunkMap g buf) = buf := by
  suffices haux : ∀ (n : Nat) (buf : List Nat), buf.length ≤ n →
      chunkMap f (chunkMap g buf) = buf by
    intro buf; exact haux buf.length buf (Nat.le_refl _)
  intro n
  induction n with
  | zero =>
      intro buf hn
      have hb : buf.length < 16 := by omega
      rw [chunkMap_small g buf hb, chunkMap_small f buf hb]
  | succ n ih =>
      intro buf hn
      by_cases hlt : buf.length < 16
      · rw [chunkMap_small g buf hlt, chunkMap_small f buf hlt]
      · have h16 : 16 ≤ buf.length := by omega
        have ht : (buf.take 16).length = 16 := by
          simp [List.length_take]; omega
        obtain ⟨hglen, hfg⟩ := h _ ht
        rw [chunkMap_step g buf h16]
        have hcat : 16 ≤ (g (buf.take 16) ++ chunkMap g (buf.drop 16)).length := by
          simp [List.length_append, hglen]
        rw [chunkMap_step f _ hcat]
        rw [List.take_left' hglen, List.drop_left' hglen, hfg]
        rw [ih (buf.drop 16) (by simp [List.length_drop]; omega)]
        exact List.take_append_drop 16 buf

theorem chunkMap_length (f : List Nat → List Nat)
    (hf : ∀ b : List Nat, b.length = 16 → (f b).length = 16) :
    ∀ buf : List Nat, (chunkMap f buf).length = buf.length := by
  suffices haux : ∀ (n : Nat) (buf : List Nat), buf.length ≤ n →
      (chunkMap f buf).length = buf.length by
    intro buf; exact haux buf.length buf (Nat.le_refl _)
  intro n
  induction n with
  | zero =>
      intro buf hn
      rw [chunkMap_small f buf (by omega)]
  | succ n ih =>
      intro buf hn
      by_cases hlt : buf.length < 16
      · rw [chunkMap_small f buf hlt]
      · have h16 : 16 ≤ buf.length := by omega
        have ht : (buf.take 16).length = 16 := by
          simp [List.length_take]; omega
        rw [chunkMap_step f buf h16]
        simp only [List.length_append, hf _ ht,
          ih (buf.drop 16) (by simp [List.length_drop]; omega),
          List.length_drop]
        omega

theorem chunkMap_tail (f : List Nat → List Nat)
    (hf : ∀ b : List Nat, b.length = 16 → (f b).length = 16) :
    ∀ buf : List Nat,
      (chunkMap f buf).drop (16 * (buf.length / 16))
        = buf.drop (16 * (buf.length / 16)) := by
  suffices haux : ∀ (n : Nat) (buf : List Nat), buf.length ≤ n →
      (chunkMap f buf).drop (16 * (buf.length / 16))
        = buf.drop (16 * (buf.length / 16)) by
    intro buf; exact haux buf.length buf (Nat.le_refl _)
  intro n
  induction n with
  | zero =>
      intro buf hn
      rw [chunkMap_small f buf (by omega)]
  | succ n ih =>
      intro buf hn
      by_cases hlt : buf.length < 16
      · rw [chunkMap_small f buf hlt]
      · have h16 : 16 ≤ buf.length := by omega
        have ht : (buf.take 16).length = 16 := by
          simp [List.length_take]; omega
        have hflen : (f (buf.take 16)).length = 16 := hf _ ht
        have hq : 16 * (buf.length / 16)
            = 16 + 16 * ((buf.length - 16) / 16) := by omega
        have hd : (buf.drop 16).length = buf.length - 16 := by
          simp [List.length_drop]
        rw [chunkMap_step f buf h16, hq]
        rw [show 16 + 16 * ((buf.length - 16) / 16)
              = (f (buf.take 16)).length + 16 * ((buf.length - 16) / 16) by
            rw [hflen]]
        rw [List.drop_append, hflen, ← List.drop_drop]
        have hrec := ih (buf.drop 16) (by omega)
        rw [hd] at hrec
        exact hrec

theorem readI32LE_cons (b0 b1 b2 b3 : Nat) (l : List Nat) :
    readI32LE (b0 :: b1 :: b2 :: b3 :: l)
      = some (toI32 (b0 % 256 + 256 * (b1 % 256) + 65536 * (b2 % 256)
                     + 16777216 * (b3 % 256)), l) := rfl

theorem boolByte (b : Bool) : (((if b then 1 else 0 : Nat) % 256) != 0) = b := by
  cases b <;> rfl

theorem chronoOrDefault_i32 (t : Int)
    (h1 : -2147483648 ≤ t) (h2 : t < 2147483648) :
    chronoOrDefault t = t := by
  have hr : chronoInRange t = true := by
    simp only [chronoInRange, Bool.and_eq_true, decide_eq_true_eq]
    omega
  simp [chronoOrDefault, hr]

theorem Version.parse_leB (v : Nat) (h : v < 4294967296) (l : List Nat) :
    Version.parse (leBytes4 v ++ l)
      = some (⟨v / 1000000, v / 1000 % 1000, v % 1000⟩, l) := by
  simp only [Version.parse, readU32LE_leB, Nat.mod_eq_of_lt h,
    Option.some.injEq, Prod.mk.injEq, Version.mk.injEq, and_true]
  omega

theorem Version.parse_serialize_version (v : Version) (hwf : v.wf) (l : List Nat) :
    Version.parse (serializeVersion v ++ l) = some (v, l) := by
  obtain ⟨ma, mi, pa⟩ := v
  obtain ⟨h1, h2, h3⟩ := hwf
  have h1m : mi < 1000 := h1
  have h2p : pa < 1000 := h2
  have h3s : ma * 1000000 + mi * 1000 + pa < 4294967296 := h3
  simp only [serializeVersion, Version.packed]
  rw [Version.parse_leB _ h3s]
  simp only [Option.some.injEq, Prod.mk.injEq, Version.mk.injEq, and_true]
  omega

theorem Header.parse_serialize_header (h : Header) (hwf : h.wf) (l : List Nat) :
    Header.parse (serializeHeader h ++ l) = some (h, l) := by
  obtain ⟨h1, h2, hc1, hc2⟩ := hwf
  rw [serializeHeader, List.append_assoc, List.append_assoc]
  simp only [Header.parse, Version.parse_serialize_version h.rom_version h1,
    Version.parse_serialize_version h.data_version h2, readU32LE_leB,
    Nat.mod_eq_of_lt hc1, hc2]

theorem ArchiveHeader.parse_serialize_archive (a : ArchiveHeader) (hwf : a.wf)
    (l : List Nat) :
    ArchiveHeader.parse (serializeArchiveHeader a ++ l) = some (a, l) := by
  obtain ⟨hm1, hm2, hv, hsi, hsl, hsf, hsd, he⟩ := hwf
  rw [serializeArchiveHeader]
  simp only [List.append_assoc, List.cons_append, List.nil_append]
  simp only [ArchiveHeader.parse, parseString_ser a.magic hm1 hm2,
    readU16LE_leB, Nat.mod_eq_of_lt hv, readU8_cons,
    Nat.mod_eq_of_lt hsi, Nat.mod_eq_of_lt hsl, Nat.mod_eq_of_lt hsf,
    Nat.mod_eq_of_lt hsd, readU32LE_leB, Nat.mod_eq_of_lt he]

/-- Record equal to `r` except for the timestamp field. -/
def Recruit.setTime (r : Recruit) (t : Int) : Recruit :=
  ⟨r.flag, r.unknown0, r.host, r.aime_id, r.name, r.chara, r.chara_level,
   r.skill, r.skill_level, r.trophy, r.trophy2, r.trophy3, r.rating,
   r.music_id, r.difficulty, r.team, r.avatar_wear, r.avatar_head,
   r.avatar_face, r.avatar_skin, r.avatar_item, r.avatar_front,
   r.avatar_back, r.music_id2, r.group, t, r.players, r.event_mode,
   r.friend_only⟩

theorem Recruit.setTime_self (r : Recruit) : r.setTime r.time = r := rfl

theorem Recruit.parse_serAux (r : Recruit) (hwf : r.wfCore)
    (b0 b1 b2 b3 : Nat) (l : List Nat) :
    Recruit.parse (serializeRecruitAux r [b0, b1, b2, b3] ++ l)
      = some (r.setTime (chronoOrDefault (toI32 (b0 % 256 + 256 * (b1 % 256)
          + 65536 * (b2 % 256) + 16777216 * (b3 % 256)))), l) := by
  obtain ⟨hu0, hho, hai, hn1, hn2, hch, hcl, hsk, hskl, htr, htr2, htr3,
    hra, hmu, hdi, hte1, hte2, haw, hah, haf, has, haitem, hafr, hab,
    hm2, ⟨hg1, hg2⟩, hpl⟩ := hwf
  rw [serializeRecruitAux]
  simp only [List.append_assoc, List.cons_append, List.nil_append]
  simp only [Recruit.parse, readExact_replicate, readU8_cons, boolByte,
    readU32LE_leB, readU32BE_beB, readU64LE_leB, readI32LE_cons,
    parseString_ser r.name hn1 hn2, parseString_ser r.team hte1 hte2,
    readI32LE_i32leB (-1) (by norm_num) (by norm_num),
    Nat.mod_eq_of_lt hu0, Nat.mod_eq_of_lt hho, Nat.mod_eq_of_lt hai,
    Nat.mod_eq_of_lt hch, Nat.mod_eq_of_lt hcl, Nat.mod_eq_of_lt hsk,
    Nat.mod_eq_of_lt hskl, Nat.mod_eq_of_lt htr, Nat.mod_eq_of_lt htr2,
    Nat.mod_eq_of_lt htr3, Nat.mod_eq_of_lt hra, Nat.mod_eq_of_lt hmu,
    Nat.mod_eq_of_lt hdi, Nat.mod_eq_of_lt haw, Nat.mod_eq_of_lt hah,
    Nat.mod_eq_of_lt haf, Nat.mod_eq_of_lt has, Nat.mod_eq_of_lt haitem,
    Nat.mod_eq_of_lt hafr, Nat.mod_eq_of_lt hab, Nat.mod_eq_of_lt hm2,
    Nat.mod_eq_of_lt hg1, hg2, Nat.mod_eq_of_lt hpl, Recruit.setTime]

theorem Recruit.parse_serialize_recruit (r : Recruit) (hwf : r.wf) (l : List Nat) :
    Recruit.parse (serializeRecruit r ++ l) = some (r, l) := by
  obtain ⟨hcore, ht1, ht2⟩ := hwf
  have hbytes : i32leBytes r.time
      = [(r.time % 4294967296).toNat % 256,
         (r.time % 4294967296).toNat / 256 % 256,
         (r.time % 4294967296).toNat / 65536 % 256,
         (r.time % 4294967296).toNat / 16777216 % 256] := rfl
  rw [serializeRecruit, hbytes, Recruit.parse_serAux r hcore]
  have hval : ((r.time % 4294967296).toNat % 256 % 256
      + 256 * ((r.time % 4294967296).toNat / 256 % 256 % 256)
      + 65536 * ((r.time % 4294967296).toNat / 65536 % 256 % 256)
      + 16777216 * ((r.time % 4294967296).toNat / 16777216 % 256 % 256))
      = (r.time % 4294967296).toNat := by omega
  rw [hval]
  have htoi : toI32 (r.time % 4294967296).toNat = r.time := by
    rw [toI32]
    split <;> omega
  rw [htoi, chronoOrDefault_i32 r.time ht1 ht2, Recruit.setTime_self]

theorem Recruit.parse_serialize_recruit_nil (r : Recruit) (hwf : r.wf) :
    Recruit.parse (serializeRecruit r) = some (r, []) := by
  have h := Recruit.parse_serialize_recruit r hwf []
  rwa [List.append_nil] at h

theorem dump_roundtrip (enc dec : List Nat → List Nat)
    (hc : ∀ b : List Nat, b.length = 16 → (enc b).length = 16 ∧ dec (enc b) = b)
    (tag : List Nat) (htag : tag.length = 4)
    (e : Envelope) (hwf : e.WellFormed) :
    dump dec true (tag ++ chunkMap enc e.serialize)
      = ⟨some e.serialize, some e.header, some e.archive, e.recruitOut, .ok⟩ := by
  obtain ⟨hh, ha, hb⟩ := hwf
  have hserlen : ¬ (tag ++ chunkMap enc e.serialize).length < 4 := by
    simp [List.length_append, htag]
  have hdrop : (tag ++ chunkMap enc e.serialize).drop 4
      = chunkMap enc e.serialize := List.drop_left' htag
  have hbuf : chunkMap dec (chunkMap enc e.serialize) = e.serialize :=
    chunkMap_chunkMap dec enc hc _
  simp only [dump, if_neg hserlen, hdrop, hbuf, eq_self_iff_true, if_true]
  cases hbody : e.body with
  | recruitBody r =>
      have hser : e.serialize = serializeHeader e.header
          ++ (serializeArchiveHeader e.archive ++ serializeRecruit r) := by
        rw [Envelope.serialize, hbody, List.append_assoc]
      have hout : e.recruitOut = some r := by
        rw [Envelope.recruitOut, hbody]
      rw [hser, hout]
      simp only [Header.parse_serialize_header e.header hh,
        ArchiveHeader.parse_serialize_archive e.archive ha]
      cases hcmd : e.header.command with
      | Recruit =>
          rw [hcmd, hbody] at hb
          simp only [Recruit.parse_serialize_recruit_nil r hb]
      | RecruitEnd =>
          rw [hcmd, hbody] at hb
          simp only [Recruit.parse_serialize_recruit_nil r hb]
      | Unknown x =>
          rw [hcmd, hbody] at hb
          exact hb.elim
  | rawBody bs =>
      have hser : e.serialize = serializeHeader e.header
          ++ (serializeArchiveHeader e.archive ++ bs) := by
        rw [Envelope.serialize, hbody, List.append_assoc]
      have hout : e.recruitOut = none := by
        rw [Envelope.recruitOut, hbody]
      rw [hser, hout]
      simp only [Header.parse_serialize_header e.header hh,
        ArchiveHeader.parse_serialize_archive e.archive ha]
      cases hcmd : e.header.command with
      | Recruit =>
          rw [hcmd, hbody] at hb
          exact hb.elim
      | RecruitEnd =>
          rw [hcmd, hbody] at hb
          exact hb.elim
      | Unknown x => rfl

theorem dump_written (dec : List Nat → List Nat) (sinkOk : Bool)
    (pkt : List Nat) (h4 : 4 ≤ pkt.length) :
    (dump dec sinkOk pkt).written = some (chunkMap dec (pkt.drop 4)) := by
  have hn : ¬ pkt.length < 4 := by omega
  simp only [dump, if_neg hn]
  repeat' (first | rfl | split)

/-- Byte sequence of the UTF-8 string `Alice`. -/
def aliceBytes : List Nat := [65, 108, 105, 99, 101]

/-- Recruit record with every scalar at its sentinel value: `aime_id = 42`,
`name = "Alice"`, `group = B` (raw value 2), everything else zero, false or
empty. -/
def sentinelRecruit : Recruit :=
  ⟨false, 0, 0, 42, aliceBytes, 0, 0, 0, 0, 0, 0, 0, 0, 0, 0, [],
   0, 0, 0, 0, 0, 0, 0, 0, .B, 0, 0, false, false⟩

/-- Recruit body laid out as claim C5 describes it: identical to the wire
encoding of `sentinelRecruit` except that the always-1 field is written as
a 32-bit word (`leBytes4 1`) instead of the 64-bit word the decoder
actually consumes. -/
def recruitBody32 : List Nat :=
  List.replicate 15 0 ++ [0] ++ leBytes4 0 ++ beBytes4 0 ++ leBytes4 42
    ++ leBytes4 0 ++ serializeString aliceBytes
    ++ leBytes4 0 ++ leBytes4 0 ++ leBytes4 0 ++ leBytes4 0 ++ leBytes4 0
    ++ leBytes4 0 ++ leBytes4 0 ++ leBytes4 0 ++ leBytes4 0 ++ leBytes4 0
    ++ leBytes4 1
    ++ serializeString []
    ++ List.replicate 30 0
    ++ leBytes4 0 ++ leBytes4 0 ++ leBytes4 0 ++ leBytes4 0 ++ leBytes4 0
    ++ leBytes4 0 ++ leBytes4 0
    ++ List.replicate 16 0
    ++ leBytes4 0 ++ leBytes4 2 ++ leBytes4 0 ++ leBytes4 0
    ++ i32leBytes (-1) ++ List.replicate 5 0 ++ i32leBytes 0
    ++ leBytes4 0 ++ [0] ++ [0]

/-- Concrete well-formed envelope carrying a Recruit command and the
sentinel record; the archive magic is the four ASCII bytes `PIAR`. -/
def exampleEnvelope : Envelope :=
  ⟨⟨⟨1, 2, 3⟩, ⟨0, 0, 0⟩, .Recruit⟩, ⟨[80, 73, 65, 82], 1, 4, 8, 4, 8, 1⟩,
   .recruitBody sentinelRecruit⟩

/-- C1: the claim says a premature end-of-buffer while reading either
header is an error return and never a panic; in fact the
`ArchiveHeader::parse` result is consumed with `.unwrap()`, so a decrypted
buffer of 16 zero bytes (header parses as all-zero versions with command
`Unknown 0`, archive header then hits end-of-buffer) makes `dump` panic,
while a buffer too short for the outer `Header` is indeed an error
return. -/
theorem c1_archive_eof_panics :
    dump idBlock true (List.replicate 20 0)
      = ⟨some (List.replicate 16 0),
         some ⟨⟨0, 0, 0⟩, ⟨0, 0, 0⟩, .Unknown 0⟩, none, none, .panicked⟩
      ∧ dump idBlock true (List.replicate 10 0)
        = ⟨some (List.replicate 6 0), none, none, none, .decodeErr⟩ := by
  decide

/-- C2 counterexample: for the 5-byte payload `[0,0,0,0,0]` the remainder
after the magic has length 1, not a multiple of 16, yet `dump` still
proceeds to write the (undecrypted) 1-byte buffer to the sink before the
header parse fails, contradicting the claim that it does not proceed to
write or parse. -/
theorem c2_counterexample :
    (dump idBlock true [0, 0, 0, 0, 0]).written = some [0]
      ∧ (dump idBlock true [0, 0, 0, 0, 0]).status = .decodeErr := by
  decide

/-- C2 amended: `dump` performs no ciphertext-length check.  For every
payload of length at least 4 and every block function preserving block
length, the buffer written to the sink is the blockwise-decrypted
remainder; the trailing `n mod 16` bytes of that buffer are left exactly
as they were in the ciphertext, and when the length is not a multiple of
16 that untouched tail is nonempty, so the buffer is partially
decrypted rather than rejected. -/
theorem c2_no_length_check (dec : List Nat → List Nat)
    (hdec : ∀ b : List Nat, b.length = 16 → (dec b).length = 16)
    (sinkOk : Bool) (pkt : List Nat) (h4 : 4 ≤ pkt.length) :
    (dump dec sinkOk pkt).written = some (chunkMap dec (pkt.drop 4))
      ∧ (chunkMap dec (pkt.drop 4)).drop (16 * ((pkt.length - 4) / 16))
          = (pkt.drop 4).drop (16 * ((pkt.length - 4) / 16))
      ∧ ((pkt.length - 4) % 16 ≠ 0 →
          ((pkt.drop 4).drop (16 * ((pkt.length - 4) / 16))).length ≠ 0) := by
  refine ⟨dump_written dec sinkOk pkt h4, ?_, ?_⟩
  · have h := chunkMap_tail dec hdec (pkt.drop 4)
    rwa [List.length_drop] at h
  · intro hmod
    simp only [List.length_drop]
    omega

/-- C2 amended, witness: the 5-byte all-zero payload instantiates the
amended statement; its 1-byte tail survives unmodified in the written
buffer. -/
theorem c2_no_length_check_witness :
    (dump idBlock true [0, 0, 0, 0, 0]).written
        = some (chunkMap idBlock ([0, 0, 0, 0, 0].drop 4))
      ∧ (chunkMap idBlock ([0, 0, 0, 0, 0].drop 4)).drop
            (16 * (([0, 0, 0, 0, 0].length - 4) / 16))
          = ([0, 0, 0, 0, 0].drop 4).drop
            (16 * (([0, 0, 0, 0, 0].length - 4) / 16))
      ∧ (([0, 0, 0, 0, 0].length - 4) % 16 ≠ 0 →
          (([0, 0, 0, 0, 0].drop 4).drop
            (16 * (([0, 0, 0, 0, 0].length - 4) / 16))).length ≠ 0) :=
  c2_no_length_check idBlock (fun _ hb => hb) true [0, 0, 0, 0, 0]
    (by decide)

/-- C3 counterexample: on the 20-byte all-zero payload with a failing sink,
`dump` returns the sink error without attempting the structured-field
parse (no header is produced), even though the very same decrypted buffer
has a parseable header — the write failure does block the parse,
contradicting the claimed independence. -/
theorem c3_counterexample :
    (dump idBlock false (List.replicate 20 0)).status = .sinkErr
      ∧ (dump idBlock false (List.replicate 20 0)).header = none
      ∧ (Header.parse (chunkMap idBlock ((List.replicate 20 0).drop 4))).isSome
          = true := by
  decide

/-- C3 amended: the full decrypted buffer (header-inclusive,
magic-exclusive) is passed to the sink write before any parsing, for every
payload of length at least 4 and regardless of the later parse outcome;
but when the sink write fails, `dump` aborts the packet through `?` with
the sink error and the structured-field parse of that packet is not
attempted. -/
theorem c3_write_first_but_sink_error_aborts (dec : List Nat → List Nat)
    (pkt : List Nat) (h4 : 4 ≤ pkt.length) :
    (∀ sinkOk : Bool,
        (dump dec sinkOk pkt).written = some (chunkMap dec (pkt.drop 4)))
      ∧ (dump dec false pkt).status = .sinkErr
      ∧ (dump dec false pkt).header = none := by
  have hn : ¬ pkt.length < 4 := by omega
  refine ⟨fun sinkOk => dump_written dec sinkOk pkt h4, ?_, ?_⟩
  · simp only [dump, if_neg hn]
    rfl
  · simp only [dump, if_neg hn]
    rfl

/-- C3 amended, witness: instance at the 20-byte all-zero payload. -/
theorem c3_write_first_but_sink_error_aborts_witness :
    (∀ sinkOk : Bool,
        (dump idBlock sinkOk (List.replicate 20 0)).written
          = some (chunkMap idBlock ((List.replicate 20 0).drop 4)))
      ∧ (dump idBlock false (List.replicate 20 0)).status = .sinkErr
      ∧ (dump idBlock false (List.replicate 20 0)).header = none :=
  c3_write_first_but_sink_error_aborts idBlock (List.replicate 20 0)
    (by decide)

/-- C4: the claim says a frame whose link/network slicing fails is
reported and skipped, never fatal; in fact the slicing error propagates
out of `main` through `?` and terminates the loop, while a capture read
error and a `dump`-level decode error (here on a malformed payload sent to
port 50200) do continue with the next packet. -/
theorem c4_malformed_frame_terminates :
    loopStep idBlock true (.frame .malformed) = .terminated
      ∧ loopStep idBlock true .readErr = .nextPacket
      ∧ loopStep idBlock true (.frame (.sliced true true 50200 [0, 0, 0, 0, 0]))
          = .nextPacket := by
  decide

/-- C5 counterexample: the Recruit body built exactly as the claim
describes it — zero-filled skips, sentinel scalars, and a 32-bit always-1
field — fails to decode (the decoder consumes a 64-bit always-1 field, so
every following offset shifts and the final reads run out of bytes). -/
theorem c5_counterexample : Recruit.parse recruitBody32 = none := by
  decide

/-- C5 amended: with the always-1 field written as the 64-bit word the
decoder actually reads, the sentinel body — zero-filled 15/30/16/5-byte
skips, discarded always-zero word, always-one 64-bit word and -1 sentinel,
`aime_id = 42`, `name = "Alice"`, raw group 2 — decodes to exactly the
sentinel record with `group = B`, consuming the whole body. -/
theorem c5_sentinel_decode :
    Recruit.parse (serializeRecruit sentinelRecruit)
      = some (sentinelRecruit, [])
      ∧ sentinelRecruit.aime_id = 42
      ∧ sentinelRecruit.name = aliceBytes
      ∧ sentinelRecruit.group = .B := by
  decide

/-- C6: `Version::parse` splits a packed little-endian 32-bit integer into
`major = v / 1000000`, `minor = (v / 1000) mod 1000`, `patch = v mod 1000`
(the `u16` casts never truncate because `v < 2^32` bounds every
component). -/
theorem c6_version_decode (v : Nat) (h : v < 4294967296) (l : List Nat) :
    Version.parse (leBytes4 v ++ l)
      = some (⟨v / 1000000, v / 1000 % 1000, v % 1000⟩, l) :=
  Version.parse_leB v h l

/-- C6 witness: 1002003 decodes to 1.2.3 and 0 decodes to 0.0.0. -/
theorem c6_version_decode_witness :
    Version.parse (leBytes4 1002003 ++ []) = some (⟨1, 2, 3⟩, [])
      ∧ Version.parse (leBytes4 0 ++ []) = some (⟨0, 0, 0⟩, []) :=
  ⟨(c6_version_decode 1002003 (by decide) []).trans (by decide),
   (c6_version_decode 0 (by decide) []).trans (by decide)⟩

/-- C7: the command mapping is total and lossless — 11 and 12 map to the
named variants and every other value maps to `Unknown` carrying the raw
value unchanged. -/
theorem c7_command_mapping :
    Command.fromU32 11 = .Recruit ∧ Command.fromU32 12 = .RecruitEnd
      ∧ ∀ x : Nat, x ≠ 11 → x ≠ 12 → Command.fromU32 x = .Unknown x := by
  refine ⟨rfl, rfl, fun x h1 h2 => ?_⟩
  simp [Command.fromU32, h1, h2]

/-- C7 witness: 999 maps to `Unknown 999`. -/
theorem c7_command_mapping_witness :
    Command.fromU32 999 = .Unknown 999 :=
  c7_command_mapping.2.2 999 (by decide) (by decide)

/-- C8: the timestamp conversion can never fail the record — for every
value of the four raw timestamp bytes, the Recruit decode succeeds and the
decoded instant is the fallback conversion `chronoOrDefault` of the signed
32-bit value; moreover for every instant within the `i32` range the
conversion is the identity, so the default can only ever be substituted
for values outside that range (which the 4-byte reader cannot produce). -/
theorem c8_timestamp_never_fails :
    (∀ b0 b1 b2 b3 : Nat,
        Recruit.parse (serializeRecruitAux sentinelRecruit [b0, b1, b2, b3])
          = some (sentinelRecruit.setTime (chronoOrDefault (toI32 (b0 % 256
              + 256 * (b1 % 256) + 65536 * (b2 % 256)
              + 16777216 * (b3 % 256)))), []))
      ∧ (∀ t : Int, -2147483648 ≤ t → t < 2147483648 →
          chronoOrDefault t = t) := by
  constructor
  · intro b0 b1 b2 b3
    have h := Recruit.parse_serAux sentinelRecruit (by decide) b0 b1 b2 b3 []
    rwa [List.append_nil] at h
  · exact fun t h1 h2 => chronoOrDefault_i32 t h1 h2

/-- C8 witness: the most negative `i32` timestamp still decodes, to the
instant -2147483648 itself (within chrono range, no fallback needed). -/
theorem c8_timestamp_never_fails_witness :
    Recruit.parse (serializeRecruitAux sentinelRecruit [0, 0, 0, 128])
        = some (sentinelRecruit.setTime (-2147483648), [])
      ∧ chronoOrDefault (-2147483648) = -2147483648 := by
  constructor
  · have h := c8_timestamp_never_fails.1 0 0 0 128
    rw [h]
    decide
  · exact c8_timestamp_never_fails.2 (-2147483648) (by decide) (by decide)

/-- C9: round trip — for any block cipher pair whose decryption inverts
its encryption on 16-byte blocks (as the fixed-key AES-128 of the source
does), encrypting a well-formed plaintext envelope blockwise, prepending a
4-byte magic and feeding the result through `dump` reproduces the original
header, archive header and (for Recruit commands) record exactly, and
writes the original plaintext to the sink. -/
theorem c9_roundtrip (enc dec : List Nat → List Nat)
    (hc : ∀ b : List Nat, b.length = 16 → (enc b).length = 16 ∧ dec (enc b) = b)
    (tag : List Nat) (htag : tag.length = 4)
    (e : Envelope) (hwf : e.WellFormed) :
    dump dec true (tag ++ chunkMap enc e.serialize)
      = ⟨some e.serialize, some e.header, some e.archive, e.recruitOut, .ok⟩ :=
  dump_roundtrip enc dec hc tag htag e hwf

/-- C9 witness: concrete instance with the identity block pair and the
sentinel Recruit envelope. -/
theorem c9_roundtrip_witness :
    dump idBlock true ([0, 0, 0, 0] ++ chunkMap idBlock exampleEnvelope.serialize)
      = ⟨some exampleEnvelope.serialize, some exampleEnvelope.header,
         some exampleEnvelope.archive, some sentinelRecruit, .ok⟩ :=
  c9_roundtrip idBlock idBlock (fun _ hb => ⟨hb, rfl⟩) [0, 0, 0, 0] rfl
    exampleEnvelope (by decide)

/-- C10: a payload shorter than 4 bytes panics `dump` on the out-of-bounds
slice `pkt[0..4]` taken for the magic prefix, before any guard, write or
parse. -/
theorem c10_short_payload_panics (dec : List Nat → List Nat) (sinkOk : Bool)
    (pkt : List Nat) (h : pkt.length < 4) :
    dump dec sinkOk pkt = ⟨none, none, none, none, .panicked⟩ := by
  simp [dump, h]

/-- C10 witness: the 3-byte payload panics. -/
theorem c10_short_payload_panics_witness :
    dump idBlock true [0, 0, 0] = ⟨none, none, none, none, .panicked⟩ :=
  c10_short_payload_panics idBlock true [0, 0, 0] (by decide)

end ChuniC2C
